import Mathlib

/- The rational arithmetic of the Batteries library is sealed; reopening it
   lets concrete pipeline runs be checked by the decide tactic. -/
attribute [local semireducible] Rat.add Rat.mul Rat.inv Rat.sub Rat.ofScientific

/- Shallow embedding of the CLTV pipeline in src/RFM-Analysis.ipynb.
   A table is a list of rows.  Numeric cells are rationals, timestamps are
   integers counted in seconds, and the pandas timedelta .days accessor is
   floor division by 86400.  Nullable columns are Option-typed; dropna keeps
   exactly the rows where every nullable cell is present. -/

structure Txn where
  invoice : String
  stockCode : String
  description : Option String
  quantity : ℚ
  invoiceDate : ℤ
  price : ℚ
  customerId : Option ℤ
  country : String
deriving DecidableEq

structure AggRow where
  customerId : ℤ
  country : String
  monetary : ℚ
  lifespan : ℚ
  recency : ℚ
  frequency : Nat
deriving DecidableEq

structure MetricRow where
  customerId : ℤ
  country : String
  monetary : ℚ
  lifespan : ℚ
  recency : ℚ
  frequency : Nat
  avgPurchaseValue : ℚ
  avgPurchaseFrequency : ℚ
  customerValue : ℚ
  avgCustomerLifespan : ℚ
  cltv : ℚ
deriving DecidableEq

/- Cell 13: df_copy.dropna(inplace=True). -/
def dropna (df : List Txn) : List Txn :=
  df.filter (fun r => r.description.isSome && r.customerId.isSome)

def sortQ (xs : List ℚ) : List ℚ := List.insertionSort (· ≤ ·) xs

/- Linear-interpolated order statistic at fractional position x of the sorted
   column, the pandas default interpolation for Series.quantile. -/
def interp (s : List ℚ) (x : ℚ) : ℚ :=
  s.getD (Int.floor x).toNat 0 +
    (x - ((Int.floor x).toNat : ℚ)) *
      (s.getD ((Int.floor x).toNat + 1) (s.getD (Int.floor x).toNat 0) -
        s.getD (Int.floor x).toNat 0)

def quantile (xs : List ℚ) (q : ℚ) : ℚ :=
  interp (sortQ xs) (((xs.length : ℚ) - 1) * q)

/- Cell 15: outlier_thresholds(dataframe, variable), returning
   (low_limit, up_limit). -/
def outlier_thresholds (df : List Txn) (col : Txn → ℚ) : ℚ × ℚ :=
  (quantile (df.map col) (1/100) -
      3/2 * (quantile (df.map col) (99/100) - quantile (df.map col) (1/100)),
    quantile (df.map col) (99/100) +
      3/2 * (quantile (df.map col) (99/100) - quantile (df.map col) (1/100)))

def setPrice (r : Txn) (v : ℚ) : Txn := { r with price := v }

def setQuantity (r : Txn) (v : ℚ) : Txn := { r with quantity := v }

/- Cell 15: replace_with_thresholds.  The source performs two sequential
   .loc assignments: first every value strictly below low_limit is set to
   low_limit, then every value strictly above up_limit is set to up_limit. -/
def replace_with_thresholds (df : List Txn) (col : Txn → ℚ) (upd : Txn → ℚ → Txn) :
    List Txn :=
  ((df.map (fun r =>
      if col r < (outlier_thresholds df col).1 then upd r (outlier_thresholds df col).1
      else r)).map (fun r =>
      if (outlier_thresholds df col).2 < col r then upd r (outlier_thresholds df col).2
      else r))

/- Cell 16: capping applied to Price and then to Quantity. -/
def capStage (df : List Txn) : List Txn :=
  replace_with_thresholds (replace_with_thresholds df Txn.price setPrice)
    Txn.quantity setQuantity

/- Cell 18: dict(df_copy[Country].value_counts()) evaluated at one country. -/
def countryCount (df : List Txn) (c : String) : Nat :=
  (df.filter (fun r => r.country = c)).length

/- One pass of the cell 19 loop body: df_copy[Country].replace({c: others}). -/
def replaceCountry (df : List Txn) (c : String) : List Txn :=
  df.map (fun r => if r.country = c then { r with country := "others" } else r)

/- Cell 19: the folding loop.  It walks the keys of the snapshot dictionary
   and conditionally rewrites the live table; counts always come from the
   snapshot taken in cell 18. -/
def foldLoop (snapshot : List Txn) (keys : List String) (df : List Txn) : List Txn :=
  match keys with
  | [] => df
  | c :: cs =>
      foldLoop snapshot cs
        (if countryCount snapshot c < 1000 then replaceCountry df c else df)

def foldCountries (df : List Txn) : List Txn :=
  foldLoop df ((df.map Txn.country).dedup) df

/- Cell 21: drop rows whose Invoice contains the character C. -/
def dropCancellations (df : List Txn) : List Txn :=
  df.filter (fun r => !(r.invoice.data.contains 'C'))

/- Cell 22: keep rows with strictly positive Price. -/
def filterPrice (df : List Txn) : List Txn :=
  df.filter (fun r => 0 < r.price)

/- Cell 23: TotalPrice = Price * Quantity. -/
def totalPrice (r : Txn) : ℚ := r.price * r.quantity

/- Cells 13-23 chained in source order: dropna, capping, country folding
   (with the snapshot taken before the remaining filters), cancellation
   filter, positive-price filter. -/
def cleanEnrich (df : List Txn) : List Txn :=
  filterPrice (dropCancellations (foldCountries (capStage (dropna df))))

def key (r : Txn) : ℤ × String := (r.customerId.getD 0, r.country)

def groupRows (df : List Txn) (k : ℤ × String) : List Txn :=
  df.filter (fun r => key r = k)

def maxDate (g : List Txn) : ℤ :=
  match g with
  | [] => 0
  | r :: rs => rs.foldl (fun m x => max m x.invoiceDate) r.invoiceDate

def minDate (g : List Txn) : ℤ :=
  match g with
  | [] => 0
  | r :: rs => rs.foldl (fun m x => min m x.invoiceDate) r.invoiceDate

/- Cell 28: one group of the groupby([Customer ID, Country]).agg call.
   TotalPrice is summed, InvoiceDate gives (max-min).days and
   (today_date-max).days, Invoice gives nunique. -/
def aggRowFor (df : List Txn) (today : ℤ) (k : ℤ × String) : AggRow :=
  { customerId := k.1
    country := k.2
    monetary := ((groupRows df k).map totalPrice).sum
    lifespan := (((maxDate (groupRows df k) - minDate (groupRows df k)).fdiv 86400 : ℤ) : ℚ)
    recency := (((today - maxDate (groupRows df k)).fdiv 86400 : ℤ) : ℚ)
    frequency := (((groupRows df k).map Txn.invoice).dedup).length }

def aggregate (df : List Txn) (today : ℤ) : List AggRow :=
  ((df.map key).dedup).map (aggRowFor df today)

/- Cell 30, lines 2-3: recency and CustomerLifeSpan divided by 7. -/
def toWeeks (a : AggRow) : AggRow :=
  { a with lifespan := a.lifespan / 7, recency := a.recency / 7 }

/- Cell 30: frequency > 1 filter, then the division by 7. -/
def aggFiltered (df : List Txn) (today : ℤ) : List AggRow :=
  ((aggregate df today).filter (fun a => decide (1 < a.frequency))).map toWeeks

/- Cell 35 and 39 divisor: df_copy[Customer ID].nunique(). -/
def distinctCustomers (rows : List AggRow) : Nat :=
  ((rows.map AggRow.customerId).dedup).length

/- Cells 33-41: Average Purchase Value, Average purchase frequency,
   Customer Value, Average customer lifespan, CLTV. -/
def metricEngine (rows : List AggRow) : List MetricRow :=
  rows.map (fun a =>
    let apv : ℚ := a.monetary / (a.frequency : ℚ)
    let apf : ℚ := ((rows.map AggRow.frequency).sum : ℚ) / (distinctCustomers rows : ℚ)
    let cv : ℚ := apv * apf
    let acl : ℚ := (rows.map AggRow.lifespan).sum / (distinctCustomers rows : ℚ)
    ⟨a.customerId, a.country, a.monetary, a.lifespan, a.recency, a.frequency,
      apv, apf, cv, acl, cv * acl⟩)

/-- Modelled from the spec: the specified MetricEngine fails with a
DataInsufficient error naming the detecting stage when the filtered
population has zero distinct customers; the source notebook contains no
such error handling, so this definition follows the spec wording and is
compared with metricEngine. -/
def metricEngineSpec (rows : List AggRow) : Except String (List MetricRow) :=
  if distinctCustomers rows = 0 then Except.error "MetricEngine: DataInsufficient"
  else Except.ok (metricEngine rows)

/- The whole pipeline from raw transactions to the exported table. -/
def pipeline (df : List Txn) (today : ℤ) : List MetricRow :=
  metricEngine (aggFiltered (cleanEnrich df) today)

/- Claim-side formula for outlier capping (claim C5 wording): q1 and q3 as
   1st and 99th percentile of the column, iqr = q3 - q1, clamp into
   [q1 - 1.5*iqr, q3 + 1.5*iqr]. -/
def clampVal (low high x : ℚ) : ℚ :=
  if x < low then low else if high < x then high else x

def cappedColumn (xs : List ℚ) : List ℚ :=
  xs.map (clampVal
    (quantile xs (1/100) - 3/2 * (quantile xs (99/100) - quantile xs (1/100)))
    (quantile xs (99/100) + 3/2 * (quantile xs (99/100) - quantile xs (1/100))))

/-- Modelled from the claim C4 wording: rare-country folding driven by
counts taken over the fully cleaned set, that is after the cancellation
and non-positive-price filters; compared with cleanEnrich. -/
def cleanEnrich_claim (df : List Txn) : List Txn :=
  foldCountries (filterPrice (dropCancellations (capStage (dropna df))))

/- ### Percentile helper lemmas -/

lemma getD_of_lt (s : List ℚ) (i : Nat) (d : ℚ) (h : i < s.length) :
    s.getD i d = s.get ⟨i, h⟩ := by
  simp [List.getD_eq_getElem?_getD, List.getElem?_eq_getElem h]

lemma getD_of_ge (s : List ℚ) (i : Nat) (d : ℚ) (h : s.length ≤ i) :
    s.getD i d = d := by
  simp [List.getD_eq_getElem?_getD, List.getElem?_eq_none h]

lemma sorted_getD_mono {s : List ℚ} (hs : s.Sorted (· ≤ ·)) {i j : Nat}
    (hij : i ≤ j) (hj : j < s.length) (d e : ℚ) : s.getD i d ≤ s.getD j e := by
  have hi : i < s.length := Nat.lt_of_le_of_lt hij hj
  rw [getD_of_lt _ _ _ hi, getD_of_lt _ _ _ hj]
  exact hs.rel_get_of_le (show (⟨i, hi⟩ : Fin s.length) ≤ ⟨j, hj⟩ from hij)

lemma getD_succ_ge {s : List ℚ} (hs : s.Sorted (· ≤ ·)) (i : Nat) (d : ℚ) :
    s.getD i d ≤ s.getD (i + 1) (s.getD i d) := by
  by_cases h : i + 1 < s.length
  · exact sorted_getD_mono hs (Nat.le_succ i) h d (s.getD i d)
  · rw [getD_of_ge _ (i + 1) _ (Nat.le_of_not_lt h)]

lemma interp_mono {s : List ℚ} (hs : s.Sorted (· ≤ ·)) {x y : ℚ}
    (hx : 0 ≤ x) (hxy : x ≤ y) (hy : y ≤ (s.length : ℚ) - 1) :
    interp s x ≤ interp s y := by
  rcases Nat.eq_zero_or_pos s.length with h0 | hpos
  · exfalso
    rw [h0] at hy
    push_cast at hy
    linarith
  have hy0 : 0 ≤ y := le_trans hx hxy
  have hfx : (0 : ℤ) ≤ Int.floor x := Int.floor_nonneg.mpr hx
  have hfy : (0 : ℤ) ≤ Int.floor y := Int.floor_nonneg.mpr hy0
  have hij : (Int.floor x).toNat ≤ (Int.floor y).toNat :=
    Int.toNat_le_toNat (Int.floor_le_floor hxy)
  have hjn : (Int.floor y).toNat < s.length := by
    have h1 : Int.floor y ≤ (s.length : ℤ) - 1 := by
      have h2 := Int.floor_le_floor hy
      rwa [show ((s.length : ℚ) - 1) = (((s.length : ℤ) - 1 : ℤ) : ℚ) by push_cast; ring,
        Int.floor_intCast] at h2
    omega
  have hxi : ((Int.floor x).toNat : ℚ) ≤ x := by
    have h5 : (((Int.floor x).toNat : ℤ) : ℚ) ≤ x := by
      rw [Int.toNat_of_nonneg hfx]
      exact_mod_cast Int.floor_le x
    exact_mod_cast h5
  have hxi1 : x < ((Int.floor x).toNat : ℚ) + 1 := by
    have h3 : ((Int.floor x : ℤ) : ℚ) = (((Int.floor x).toNat : ℤ) : ℚ) := by
      rw [Int.toNat_of_nonneg hfx]
    have h4 := Int.lt_floor_add_one x
    rw [h3] at h4
    exact_mod_cast h4
  have hyj : ((Int.floor y).toNat : ℚ) ≤ y := by
    have h3 : ((Int.floor y : ℤ) : ℚ) = (((Int.floor y).toNat : ℤ) : ℚ) := by
      rw [Int.toNat_of_nonneg hfy]
    have h4 := Int.floor_le y
    rw [h3] at h4
    exact_mod_cast h4
  have hab1 := getD_succ_ge hs (Int.floor x).toNat 0
  have hab2 := getD_succ_ge hs (Int.floor y).toNat 0
  unfold interp
  rcases Nat.lt_or_ge (Int.floor x).toNat (Int.floor y).toNat with hlt | hge
  · -- the two positions fall in different brackets
    have hi1n : (Int.floor x).toNat + 1 < s.length := Nat.lt_of_le_of_lt hlt hjn
    have hmid : s.getD ((Int.floor x).toNat + 1) (s.getD (Int.floor x).toNat 0) ≤
        s.getD (Int.floor y).toNat 0 :=
      sorted_getD_mono hs hlt hjn _ _
    nlinarith [hab1, hab2, hmid, hxi, hxi1, hyj]
  · -- same bracket
    have heq : (Int.floor x).toNat = (Int.floor y).toNat := Nat.le_antisymm hij hge
    rw [heq]
    nlinarith [hab2, hxy]

lemma quantile_mono (xs : List ℚ) {p q : ℚ} (h0 : 0 ≤ p) (hpq : p ≤ q) (hq : q ≤ 1) :
    quantile xs p ≤ quantile xs q := by
  unfold quantile
  rcases Nat.eq_zero_or_pos xs.length with hlen | hpos
  · have hxs : xs = [] := List.length_eq_zero.mp hlen
    subst hxs
    simp [sortQ, interp]
  · have hcast : (0 : ℚ) ≤ (xs.length : ℚ) - 1 := by
      have : (1 : ℚ) ≤ (xs.length : ℚ) := by exact_mod_cast hpos
      linarith
    apply interp_mono (List.sorted_insertionSort _ xs)
    · exact mul_nonneg hcast h0
    · exact mul_le_mul_of_nonneg_left hpq hcast
    · rw [List.length_insertionSort]
      calc ((xs.length : ℚ) - 1) * q ≤ ((xs.length : ℚ) - 1) * 1 :=
            mul_le_mul_of_nonneg_left hq hcast
        _ = (xs.length : ℚ) - 1 := mul_one _

lemma q1_le_q3 (xs : List ℚ) : quantile xs (1/100) ≤ quantile xs (99/100) :=
  quantile_mono xs (by norm_num) (by norm_num) (by norm_num)

lemma low_le_high (df : List Txn) (col : Txn → ℚ) :
    (outlier_thresholds df col).1 ≤ (outlier_thresholds df col).2 := by
  have h := q1_le_q3 (df.map col)
  unfold outlier_thresholds
  dsimp only
  linarith

/- ### Capping lemmas -/

lemma replace_map_col (df : List Txn) (col : Txn → ℚ) (upd : Txn → ℚ → Txn)
    (hupd : ∀ r v, col (upd r v) = v) :
    (replace_with_thresholds df col upd).map col = cappedColumn (df.map col) := by
  have hlh := low_le_high df col
  unfold replace_with_thresholds cappedColumn outlier_thresholds at *
  dsimp only at hlh ⊢
  simp only [List.map_map]
  apply List.map_congr_left
  intro r _
  simp only [Function.comp_apply]
  by_cases h1 : col r < quantile (df.map col) (1/100) -
      3/2 * (quantile (df.map col) (99/100) - quantile (df.map col) (1/100))
  · rw [if_pos h1]
    have h2 : ¬ (quantile (df.map col) (99/100) +
        3/2 * (quantile (df.map col) (99/100) - quantile (df.map col) (1/100)) <
          col (upd r (quantile (df.map col) (1/100) -
            3/2 * (quantile (df.map col) (99/100) - quantile (df.map col) (1/100))))) := by
      rw [hupd]
      linarith
    rw [if_neg h2, hupd, clampVal, if_pos h1]
  · rw [if_neg h1]
    by_cases h3 : quantile (df.map col) (99/100) +
        3/2 * (quantile (df.map col) (99/100) - quantile (df.map col) (1/100)) < col r
    · rw [if_pos h3, hupd, clampVal, if_neg h1, if_pos h3]
    · rw [if_neg h3, clampVal, if_neg h1, if_neg h3]

lemma replace_map_other (df : List Txn) (col : Txn → ℚ) (upd : Txn → ℚ → Txn)
    (other : Txn → ℚ) (hother : ∀ r v, other (upd r v) = other r) :
    (replace_with_thresholds df col upd).map other = df.map other := by
  unfold replace_with_thresholds
  simp only [List.map_map]
  apply List.map_congr_left
  intro r _
  simp only [Function.comp_apply]
  by_cases h1 : col r < (outlier_thresholds df col).1
  · rw [if_pos h1]
    by_cases h3 : (outlier_thresholds df col).2 < col (upd r (outlier_thresholds df col).1)
    · rw [if_pos h3, hother, hother]
    · rw [if_neg h3, hother]
  · rw [if_neg h1]
    by_cases h3 : (outlier_thresholds df col).2 < col r
    · rw [if_pos h3, hother]
    · rw [if_neg h3]

lemma replace_length (df : List Txn) (col : Txn → ℚ) (upd : Txn → ℚ → Txn) :
    (replace_with_thresholds df col upd).length = df.length := by
  unfold replace_with_thresholds
  simp

/- If every value of the column already lies inside the thresholds, the
   capping pass returns the table unchanged. -/
lemma replace_noop (df : List Txn) (col : Txn → ℚ) (upd : Txn → ℚ → Txn)
    (h : ∀ r ∈ df, ¬ (col r < (outlier_thresholds df col).1) ∧
      ¬ ((outlier_thresholds df col).2 < col r)) :
    replace_with_thresholds df col upd = df := by
  unfold replace_with_thresholds
  have h1 : df.map (fun r =>
      if col r < (outlier_thresholds df col).1 then upd r (outlier_thresholds df col).1
      else r) = df := by
    conv_rhs => rw [← List.map_id df]
    apply List.map_congr_left
    intro r hr
    rw [if_neg (h r hr).1]
    rfl
  rw [h1]
  conv_rhs => rw [← List.map_id df]
  apply List.map_congr_left
  intro r hr
  rw [if_neg (h r hr).2]
  rfl

/- ### Country folding characterization -/

lemma foldLoop_eq_map (snapshot : List Txn) (keys : List String) (df : List Txn) :
    foldLoop snapshot keys df = df.map (fun r =>
      if r.country ∈ keys ∧ countryCount snapshot r.country < 1000 then
        { r with country := "others" } else r) := by
  induction keys generalizing df with
  | nil =>
    simp [foldLoop]
  | cons c cs ih =>
    rw [foldLoop, ih]
    by_cases hc : countryCount snapshot c < 1000
    · rw [if_pos hc]
      unfold replaceCountry
      rw [List.map_map]
      apply List.map_congr_left
      intro r _
      simp only [Function.comp_apply]
      by_cases hr : r.country = c
      · rw [if_pos hr]
        have hm : r.country ∈ c :: cs := by rw [hr]; exact List.mem_cons_self c cs
        have hcnt : countryCount snapshot r.country < 1000 := by rw [hr]; exact hc
        have hcond : r.country ∈ c :: cs ∧ countryCount snapshot r.country < 1000 :=
          ⟨hm, hcnt⟩
        dsimp only
        rw [if_pos hcond]
        exact ite_self _
      · rw [if_neg hr]
        by_cases hin : (r.country ∈ cs ∧ countryCount snapshot r.country < 1000)
        · rw [if_pos hin, if_pos ⟨List.mem_cons_of_mem c hin.1, hin.2⟩]
        · have hneg : ¬ (r.country ∈ c :: cs ∧ countryCount snapshot r.country < 1000) := by
            rintro ⟨hmem, hcnt⟩
            rcases List.mem_cons.mp hmem with h | h
            · exact hr h
            · exact hin ⟨h, hcnt⟩
          rw [if_neg hin, if_neg hneg]
    · rw [if_neg hc]
      apply List.map_congr_left
      intro r _
      by_cases hr : r.country = c
      · have hneg : ¬ (r.country ∈ c :: cs ∧ countryCount snapshot r.country < 1000) := by
          rintro ⟨hmem, hcnt⟩
          rw [hr] at hcnt
          exact hc hcnt
        have hneg2 : ¬ (r.country ∈ cs ∧ countryCount snapshot r.country < 1000) := by
          rintro ⟨hmem, hcnt⟩
          rw [hr] at hcnt
          exact hc hcnt
        rw [if_neg hneg2, if_neg hneg]
      · by_cases hin : (r.country ∈ cs ∧ countryCount snapshot r.country < 1000)
        · rw [if_pos hin, if_pos ⟨List.mem_cons_of_mem c hin.1, hin.2⟩]
        · have hneg : ¬ (r.country ∈ c :: cs ∧ countryCount snapshot r.country < 1000) := by
            rintro ⟨hmem, hcnt⟩
            rcases List.mem_cons.mp hmem with h | h
            · exact hr h
            · exact hin ⟨h, hcnt⟩
          rw [if_neg hin, if_neg hneg]

/- The cell 18-19 loop is exactly a one-shot relabeling against the
   snapshot counts. -/
lemma foldCountries_eq_map (df : List Txn) :
    foldCountries df = df.map (fun r =>
      if countryCount df r.country < 1000 then { r with country := "others" } else r) := by
  rw [foldCountries, foldLoop_eq_map]
  apply List.map_congr_left
  intro r hr
  have hmem : r.country ∈ (df.map Txn.country).dedup :=
    List.mem_dedup.mpr (List.mem_map_of_mem Txn.country hr)
  by_cases hc : countryCount df r.country < 1000
  · rw [if_pos ⟨hmem, hc⟩, if_pos hc]
  · rw [if_neg (by intro hcon; exact hc hcon.2), if_neg hc]

/- ### Replicate helper lemmas -/

lemma insertionSort_replicate (n : ℕ) (a : ℚ) :
    List.insertionSort (· ≤ ·) (List.replicate n a) = List.replicate n a := by
  induction n with
  | zero => rfl
  | succ n ih =>
    rw [List.replicate_succ]
    simp only [List.insertionSort]
    rw [ih]
    cases n with
    | zero => rfl
    | succ m =>
      rw [List.replicate_succ]
      simp only [List.orderedInsert]
      rw [if_pos (le_refl a), ← List.replicate_succ, ← List.replicate_succ]

lemma getD_replicate (a d : ℚ) {n i : ℕ} (h : i < n) :
    (List.replicate n a).getD i d = a := by
  rw [getD_of_lt _ _ _ (by rw [List.length_replicate]; exact h)]
  simp

lemma quantile_replicate {q : ℚ} (h0 : 0 ≤ q) (h1 : q ≤ 1) {n : ℕ} (hn : 0 < n) (a : ℚ) :
    quantile (List.replicate n a) q = a := by
  unfold quantile sortQ
  rw [insertionSort_replicate, List.length_replicate]
  have hn1 : (1 : ℚ) ≤ (n : ℚ) := by exact_mod_cast hn
  have hx0 : 0 ≤ ((n : ℚ) - 1) * q := mul_nonneg (by linarith) h0
  have hxn : ((n : ℚ) - 1) * q ≤ (n : ℚ) - 1 := by nlinarith
  have hfx : (0 : ℤ) ≤ Int.floor (((n : ℚ) - 1) * q) := Int.floor_nonneg.mpr hx0
  have hfl : Int.floor ((n : ℚ) - 1) = (n : ℤ) - 1 := by
    rw [show ((n : ℚ) - 1) = (((n : ℤ) - 1 : ℤ) : ℚ) by push_cast; ring, Int.floor_intCast]
  have hin : (Int.floor (((n : ℚ) - 1) * q)).toNat < n := by
    have h2 : Int.floor (((n : ℚ) - 1) * q) ≤ (n : ℤ) - 1 := by
      rw [← hfl]
      exact Int.floor_le_floor hxn
    omega
  unfold interp
  rw [getD_replicate a 0 hin]
  by_cases h2 : (Int.floor (((n : ℚ) - 1) * q)).toNat + 1 < n
  · rw [getD_replicate a a h2]
    ring
  · rw [getD_of_ge _ _ _ (by rw [List.length_replicate]; omega)]
    ring

lemma filter_replicate_pos (p : Txn → Bool) (r : Txn) (h : p r = true) (n : ℕ) :
    List.filter p (List.replicate n r) = List.replicate n r :=
  List.filter_eq_self.mpr (by
    intro a ha
    rw [List.eq_of_mem_replicate ha]
    exact h)

/- ### Concrete table for the C4 boundary: country X occurs exactly 1000
   times before the cancellation filter and 999 times after it. -/

def rXc4 : Txn := ⟨"1", "s", some "d", 1, 0, 1, some 7, "X"⟩

def rCc4 : Txn := ⟨"C9", "s", some "d", 1, 0, 1, some 7, "X"⟩

def c4df : List Txn := List.replicate 999 rXc4 ++ [rCc4]

lemma c4_dropna : dropna c4df = c4df :=
  List.filter_eq_self.mpr (by
    intro a ha
    rcases List.mem_append.mp ha with h | h
    · rw [List.eq_of_mem_replicate h]; rfl
    · rw [List.mem_singleton.mp h]; rfl)

lemma c4_price_col : c4df.map Txn.price = List.replicate 1000 1 := by
  unfold c4df rXc4 rCc4
  rw [List.map_append, List.map_replicate]
  dsimp only [List.map_cons, List.map_nil]
  rw [← List.replicate_succ']

lemma c4_qty_col : c4df.map Txn.quantity = List.replicate 1000 1 := by
  unfold c4df rXc4 rCc4
  rw [List.map_append, List.map_replicate]
  dsimp only [List.map_cons, List.map_nil]
  rw [← List.replicate_succ']

lemma c4_thresholds_price : outlier_thresholds c4df Txn.price = (1, 1) := by
  unfold outlier_thresholds
  rw [c4_price_col, quantile_replicate (by norm_num) (by norm_num) (by norm_num),
    quantile_replicate (by norm_num) (by norm_num) (by norm_num)]
  norm_num

lemma c4_thresholds_qty : outlier_thresholds c4df Txn.quantity = (1, 1) := by
  unfold outlier_thresholds
  rw [c4_qty_col, quantile_replicate (by norm_num) (by norm_num) (by norm_num),
    quantile_replicate (by norm_num) (by norm_num) (by norm_num)]
  norm_num

lemma c4_row_vals (r : Txn) (hr : r ∈ c4df) : r.price = 1 ∧ r.quantity = 1 := by
  rcases List.mem_append.mp hr with h | h
  · rw [List.eq_of_mem_replicate h]; exact ⟨rfl, rfl⟩
  · rw [List.mem_singleton.mp h]; exact ⟨rfl, rfl⟩

lemma c4_cap : capStage c4df = c4df := by
  unfold capStage
  have hP : replace_with_thresholds c4df Txn.price setPrice = c4df := by
    apply replace_noop
    intro r hr
    rw [c4_thresholds_price]
    rw [(c4_row_vals r hr).1]
    norm_num
  rw [hP]
  apply replace_noop
  intro r hr
  rw [c4_thresholds_qty]
  rw [(c4_row_vals r hr).2]
  norm_num

lemma c4_count_full : countryCount c4df "X" = 1000 := by
  unfold countryCount c4df
  rw [List.filter_append, filter_replicate_pos _ _ (by decide)]
  rw [show List.filter (fun r => decide (r.country = "X")) [rCc4] = [rCc4] from rfl]
  rw [List.length_append, List.length_replicate]
  rfl

lemma c4_country (r : Txn) (hr : r ∈ c4df) : r.country = "X" := by
  rcases List.mem_append.mp hr with h | h
  · rw [List.eq_of_mem_replicate h]; rfl
  · rw [List.mem_singleton.mp h]; rfl

lemma c4_fold_id : foldCountries c4df = c4df := by
  rw [foldCountries_eq_map]
  conv_rhs => rw [← List.map_id c4df]
  apply List.map_congr_left
  intro r hr
  rw [c4_country r hr, c4_count_full]
  rw [if_neg (by norm_num)]
  rfl

lemma c4_dropC : dropCancellations c4df = List.replicate 999 rXc4 := by
  unfold dropCancellations c4df
  rw [List.filter_append, filter_replicate_pos _ _ (by decide)]
  rw [show List.filter (fun r => !(r.invoice.data.contains 'C')) [rCc4] = [] from rfl]
  rw [List.append_nil]

lemma c4_filterPrice : filterPrice (List.replicate 999 rXc4) = List.replicate 999 rXc4 :=
  filter_replicate_pos _ _ (by decide) 999

lemma c4_count_clean : countryCount (List.replicate 999 rXc4) "X" = 999 := by
  unfold countryCount
  rw [filter_replicate_pos _ _ (by decide), List.length_replicate]

/- ### Concrete tables used by witnesses -/

def c2w1 : Txn := ⟨"1", "s", some "d", 1, 0, 1, some 5, "A"⟩

def c2w2 : Txn := ⟨"2", "s", some "d", 1, 604800, 1, some 5, "A"⟩

def c3w3 : Txn := ⟨"9", "s", some "d", 1, 0, 1, some 9, "A"⟩

def c7a : Txn := ⟨"1", "s", some "d", 1, 0, 100, some 100, "UK"⟩

def c7b : Txn := ⟨"2", "s", some "d", 1, 604800, 100, some 100, "UK"⟩

def c7c : Txn := ⟨"3", "s", some "d", 1, 1209600, 100, some 100, "UK"⟩

def c8w : Txn := ⟨"1", "s", some "d", 1, 0, 1, some 5, "A"⟩

def c9r0 : Txn := ⟨"1", "s", some "d", 1, 0, 0, some 1, "X"⟩

def c9r1 : Txn := ⟨"1", "s", some "d", 1, 0, 1000, some 1, "X"⟩

def c9df : List Txn := List.replicate 98 c9r0 ++ [c9r1]

def c10a : Txn := ⟨"10", "s", some "d", -1, 0, 100, some 200, "Z"⟩

def c10b : Txn := ⟨"20", "s", some "d", -1, 604800, 100, some 200, "Z"⟩

def c10row : MetricRow := ⟨200, "others", -200, 1, 1, 2, -100, 2, -200, 1, -200⟩

/- ### Claim theorems -/

/-- C1: on the filtered customer-aggregate table the MetricEngine computes,
per output row, avg_purchase_value = monetary / frequency, the population
scalar avg_purchase_frequency = sum of frequency divided by the number of
distinct customer ids (not the row count), customer_value =
avg_purchase_value * avg_purchase_frequency, the population scalar
avg_customer_lifespan = sum of lifespan divided by the number of distinct
customer ids, and cltv = customer_value * avg_customer_lifespan. -/
theorem c1_metric_engine_formulas (rows : List AggRow) (m : MetricRow)
    (hm : m ∈ metricEngine rows) :
    m.avgPurchaseValue = m.monetary / (m.frequency : ℚ) ∧
    m.avgPurchaseFrequency =
      ((rows.map AggRow.frequency).sum : ℚ) / (distinctCustomers rows : ℚ) ∧
    m.customerValue = m.avgPurchaseValue * m.avgPurchaseFrequency ∧
    m.avgCustomerLifespan =
      (rows.map AggRow.lifespan).sum / (distinctCustomers rows : ℚ) ∧
    m.cltv = m.customerValue * m.avgCustomerLifespan := by
  obtain ⟨a, ha, rfl⟩ := List.mem_map.mp hm
  exact ⟨rfl, rfl, rfl, rfl, rfl⟩

theorem c1_metric_engine_formulas_witness :
    ((⟨1, "others", 10, 2, 1, 2, 5, 2, 10, 2, 20⟩ : MetricRow) ∈
      metricEngine [⟨1, "others", 10, 2, 1, 2⟩]) ∧
    ((⟨1, "others", 10, 2, 1, 2, 5, 2, 10, 2, 20⟩ : MetricRow).avgPurchaseValue =
        (⟨1, "others", 10, 2, 1, 2, 5, 2, 10, 2, 20⟩ : MetricRow).monetary /
          ((⟨1, "others", 10, 2, 1, 2, 5, 2, 10, 2, 20⟩ : MetricRow).frequency : ℚ) ∧
      (⟨1, "others", 10, 2, 1, 2, 5, 2, 10, 2, 20⟩ : MetricRow).avgPurchaseFrequency =
        ((([⟨1, "others", 10, 2, 1, 2⟩] : List AggRow).map AggRow.frequency).sum : ℚ) /
          (distinctCustomers [⟨1, "others", 10, 2, 1, 2⟩] : ℚ) ∧
      (⟨1, "others", 10, 2, 1, 2, 5, 2, 10, 2, 20⟩ : MetricRow).customerValue =
        (⟨1, "others", 10, 2, 1, 2, 5, 2, 10, 2, 20⟩ : MetricRow).avgPurchaseValue *
          (⟨1, "others", 10, 2, 1, 2, 5, 2, 10, 2, 20⟩ : MetricRow).avgPurchaseFrequency ∧
      (⟨1, "others", 10, 2, 1, 2, 5, 2, 10, 2, 20⟩ : MetricRow).avgCustomerLifespan =
        (([⟨1, "others", 10, 2, 1, 2⟩] : List AggRow).map AggRow.lifespan).sum /
          (distinctCustomers [⟨1, "others", 10, 2, 1, 2⟩] : ℚ) ∧
      (⟨1, "others", 10, 2, 1, 2, 5, 2, 10, 2, 20⟩ : MetricRow).cltv =
        (⟨1, "others", 10, 2, 1, 2, 5, 2, 10, 2, 20⟩ : MetricRow).customerValue *
          (⟨1, "others", 10, 2, 1, 2, 5, 2, 10, 2, 20⟩ : MetricRow).avgCustomerLifespan) :=
  ⟨by decide, c1_metric_engine_formulas [⟨1, "others", 10, 2, 1, 2⟩] _ (by decide)⟩

/-- C2: every row of the filtered aggregate table carries, for its
(customer_id, country) group, monetary = sum of line totals,
customer_lifespan_weeks = whole days between the newest and oldest invoice
divided by 7 (0 when the group has a single invoice date), recency_weeks =
whole days from the newest invoice to the reference date divided by 7, and
frequency = number of distinct invoice ids in the group. -/
theorem c2_aggregator_formulas (df : List Txn) (today : ℤ) (r : AggRow)
    (hr : r ∈ aggFiltered df today) :
    r.monetary = ((groupRows df (r.customerId, r.country)).map totalPrice).sum ∧
    r.lifespan = (((maxDate (groupRows df (r.customerId, r.country)) -
        minDate (groupRows df (r.customerId, r.country))).fdiv 86400 : ℤ) : ℚ) / 7 ∧
    r.recency =
      (((today - maxDate (groupRows df (r.customerId, r.country))).fdiv 86400 : ℤ) : ℚ) / 7 ∧
    r.frequency = (((groupRows df (r.customerId, r.country)).map Txn.invoice).dedup).length ∧
    (minDate (groupRows df (r.customerId, r.country)) =
        maxDate (groupRows df (r.customerId, r.country)) → r.lifespan = 0) := by
  obtain ⟨a, ha, rfl⟩ := List.mem_map.mp hr
  obtain ⟨haa, hfreq⟩ := List.mem_filter.mp ha
  obtain ⟨k, hk, rfl⟩ := List.mem_map.mp haa
  obtain ⟨k1, k2⟩ := k
  refine ⟨rfl, rfl, rfl, rfl, fun h => ?_⟩
  have h2 : minDate (groupRows df (k1, k2)) = maxDate (groupRows df (k1, k2)) := h
  show ((((maxDate (groupRows df (k1, k2)) -
      minDate (groupRows df (k1, k2))).fdiv 86400 : ℤ) : ℚ) / 7) = 0
  rw [show maxDate (groupRows df (k1, k2)) - minDate (groupRows df (k1, k2)) = 0 from
    sub_eq_zero.mpr h2.symm]
  norm_num

theorem c2_aggregator_formulas_witness :
    ((⟨5, "A", 2, 1, 1, 2⟩ : AggRow) ∈ aggFiltered [c2w1, c2w2] 1209600) ∧
    ((⟨5, "A", 2, 1, 1, 2⟩ : AggRow).monetary =
        ((groupRows [c2w1, c2w2] ((5 : ℤ), "A")).map totalPrice).sum ∧
      (⟨5, "A", 2, 1, 1, 2⟩ : AggRow).lifespan =
        (((maxDate (groupRows [c2w1, c2w2] ((5 : ℤ), "A")) -
          minDate (groupRows [c2w1, c2w2] ((5 : ℤ), "A"))).fdiv 86400 : ℤ) : ℚ) / 7 ∧
      (⟨5, "A", 2, 1, 1, 2⟩ : AggRow).recency =
        ((((1209600 : ℤ) - maxDate (groupRows [c2w1, c2w2] ((5 : ℤ), "A"))).fdiv 86400 : ℤ) : ℚ) / 7 ∧
      (⟨5, "A", 2, 1, 1, 2⟩ : AggRow).frequency =
        (((groupRows [c2w1, c2w2] ((5 : ℤ), "A")).map Txn.invoice).dedup).length ∧
      (minDate (groupRows [c2w1, c2w2] ((5 : ℤ), "A")) =
          maxDate (groupRows [c2w1, c2w2] ((5 : ℤ), "A")) →
        (⟨5, "A", 2, 1, 1, 2⟩ : AggRow).lifespan = 0)) :=
  ⟨by decide, c2_aggregator_formulas [c2w1, c2w2] 1209600 ⟨5, "A", 2, 1, 1, 2⟩ (by decide)⟩

/-- C3: the post-aggregation filter drops every customer row with
frequency at most 1 before any population-wide average is computed: all
output rows have frequency at least 2, a (customer, country) group whose
frequency is exactly 1 is entirely absent from the output, and the
MetricEngine runs on the filtered table. -/
theorem c3_frequency_filter (df : List Txn) (today : ℤ) (r : AggRow)
    (hr : r ∈ aggFiltered df today) (k : ℤ × String)
    (hk : (aggRowFor df today k).frequency = 1) :
    2 ≤ r.frequency ∧ (r.customerId, r.country) ≠ k ∧
    pipeline df today = metricEngine (aggFiltered (cleanEnrich df) today) := by
  obtain ⟨a, ha, rfl⟩ := List.mem_map.mp hr
  obtain ⟨haa, hfreq⟩ := List.mem_filter.mp ha
  obtain ⟨k2, hk2, rfl⟩ := List.mem_map.mp haa
  obtain ⟨k21, k22⟩ := k2
  have hf : 1 < (aggRowFor df today (k21, k22)).frequency := of_decide_eq_true hfreq
  refine ⟨hf, ?_, rfl⟩
  intro hcon
  have hkk : ((k21 : ℤ), k22) = k := hcon
  rw [← hkk] at hk
  rw [hk] at hf
  exact absurd hf (lt_irrefl 1)

theorem c3_frequency_filter_witness :
    ((⟨5, "A", 2, 1, 1, 2⟩ : AggRow) ∈ aggFiltered [c2w1, c2w2, c3w3] 1209600) ∧
    ((aggRowFor [c2w1, c2w2, c3w3] 1209600 ((9 : ℤ), "A")).frequency = 1) ∧
    (2 ≤ (⟨5, "A", 2, 1, 1, 2⟩ : AggRow).frequency ∧
      ((⟨5, "A", 2, 1, 1, 2⟩ : AggRow).customerId,
        (⟨5, "A", 2, 1, 1, 2⟩ : AggRow).country) ≠ ((9 : ℤ), "A") ∧
      pipeline [c2w1, c2w2, c3w3] 1209600 =
        metricEngine (aggFiltered (cleanEnrich [c2w1, c2w2, c3w3]) 1209600)) :=
  ⟨by decide, by decide,
    c3_frequency_filter [c2w1, c2w2, c3w3] 1209600 ⟨5, "A", 2, 1, 1, 2⟩ (by decide)
      ((9 : ℤ), "A") (by decide)⟩

/-- C4 counterexample: country X occurs 1000 times in the null-filtered
table but only 999 times after the cancellation filter.  The pipeline
keeps the label X because the snapshot is taken before the cancellation
and price filters, while the claim, which counts after those filters,
would fold X into the sentinel label. -/
theorem c4_counterexample :
    (cleanEnrich c4df).map Txn.country = List.replicate 999 "X" ∧
    (cleanEnrich_claim c4df).map Txn.country = List.replicate 999 "others" ∧
    countryCount c4df "X" = 1000 ∧
    countryCount (filterPrice (dropCancellations (capStage (dropna c4df)))) "X" = 999 := by
  have hflt : filterPrice (dropCancellations (capStage (dropna c4df))) =
      List.replicate 999 rXc4 := by
    rw [c4_dropna, c4_cap, c4_dropC, c4_filterPrice]
  have hclean : cleanEnrich c4df = List.replicate 999 rXc4 := by
    unfold cleanEnrich
    rw [c4_dropna, c4_cap, c4_fold_id, c4_dropC, c4_filterPrice]
  refine ⟨?_, ?_, c4_count_full, ?_⟩
  · rw [hclean, List.map_replicate]
    rfl
  · unfold cleanEnrich_claim
    rw [hflt, foldCountries_eq_map, List.map_map, List.map_replicate]
    apply congrArg
    show Txn.country
      (if countryCount (List.replicate 999 rXc4) rXc4.country < 1000 then
        { rXc4 with country := "others" } else rXc4) = "others"
    rw [show rXc4.country = "X" from rfl, c4_count_clean, if_pos (by norm_num)]
  · rw [hflt]
    exact c4_count_clean

/-- C4 amended: rare-country folding counts occurrences over the
null-filtered, outlier-capped table, before the cancellation and
non-positive-price filters run; the counts are a snapshot taken before any
relabeling, a country with fewer than 1000 occurrences is relabeled to
others, and a country with exactly 1000 occurrences keeps its label. -/
theorem c4_amended (df : List Txn) :
    foldCountries (capStage (dropna df)) = (capStage (dropna df)).map (fun r =>
      if countryCount (capStage (dropna df)) r.country < 1000 then
        { r with country := "others" } else r) ∧
    cleanEnrich df = filterPrice (dropCancellations (foldCountries (capStage (dropna df)))) :=
  ⟨foldCountries_eq_map _, rfl⟩

/-- C5: for unit price and quantity independently, capping computes the
1st and 99th linear-interpolated percentiles of the null-filtered column,
the fenced bounds low = q1 - 1.5*iqr and high = q3 + 1.5*iqr, clamps every
value into the fence, and leaves the row count unchanged. -/
theorem c5_outlier_capping (df : List Txn) :
    (replace_with_thresholds (dropna df) Txn.price setPrice).map Txn.price =
      cappedColumn ((dropna df).map Txn.price) ∧
    (capStage (dropna df)).map Txn.quantity =
      cappedColumn ((dropna df).map Txn.quantity) ∧
    (capStage (dropna df)).map Txn.price =
      (replace_with_thresholds (dropna df) Txn.price setPrice).map Txn.price ∧
    (replace_with_thresholds (dropna df) Txn.price setPrice).length = (dropna df).length ∧
    (capStage (dropna df)).length = (dropna df).length := by
  refine ⟨replace_map_col _ _ _ (fun r v => rfl), ?_, ?_, replace_length _ _ _, ?_⟩
  · unfold capStage
    rw [replace_map_col _ _ _ (fun r v => rfl)]
    rw [replace_map_other (dropna df) Txn.price setPrice Txn.quantity (fun r v => rfl)]
  · unfold capStage
    exact replace_map_other _ _ _ Txn.price (fun r v => rfl)
  · unfold capStage
    rw [replace_length, replace_length]

/-- C6 counterexample: on the empty filtered population the source
MetricEngine does not fail: it returns an empty table, although the
distinct-customer divisor is zero; the spec-modelled engine returns the
DataInsufficient error the claim requires. -/
theorem c6_counterexample :
    distinctCustomers ([] : List AggRow) = 0 ∧
    metricEngine ([] : List AggRow) = [] ∧
    metricEngineSpec ([] : List AggRow) =
      Except.error "MetricEngine: DataInsufficient" :=
  ⟨rfl, rfl, rfl⟩

/-- C6 amended: when the filtered population has zero distinct customers
the notebook raises no error: the population divisors are zero, the scalar
metrics are the 0/0 artifact, and the output table is empty, whereas the
spec-modelled engine fails with the DataInsufficient error naming the
MetricEngine stage. -/
theorem c6_amended (rows : List AggRow) (h : distinctCustomers rows = 0) :
    metricEngine rows = [] ∧
    metricEngineSpec rows = Except.error "MetricEngine: DataInsufficient" := by
  have hrows : rows = [] := by
    have h2 : (rows.map AggRow.customerId).dedup = [] := List.length_eq_zero.mp h
    have h3 : rows.map AggRow.customerId = [] := (List.dedup_eq_nil _).mp h2
    exact List.map_eq_nil_iff.mp h3
  subst hrows
  exact ⟨rfl, rfl⟩

theorem c6_amended_witness :
    distinctCustomers ([] : List AggRow) = 0 ∧
    (metricEngine ([] : List AggRow) = [] ∧
      metricEngineSpec ([] : List AggRow) =
        Except.error "MetricEngine: DataInsufficient") :=
  ⟨rfl, c6_amended [] rfl⟩

/-- C7: for the single qualifying customer 100 with three non-cancelled
invoices spanning 14 days, line totals summing to 300, and a reference
date 7 days after the last invoice, the pipeline outputs frequency 3,
lifespan 2 weeks, recency 1 week, monetary 300, avg purchase value 100,
avg purchase frequency 3, customer value 300, avg customer lifespan 2,
and cltv 600. -/
theorem c7_end_to_end :
    pipeline [c7a, c7b, c7c] 1814400 =
      [⟨100, "others", 300, 2, 1, 3, 100, 3, 300, 2, 600⟩] := by decide

/-- C8: a transaction whose invoice id contains the character C never
reaches the aggregation input: every row of the cleaned and enriched
table, the table every customer aggregate is computed from, is free of
the cancellation marker. -/
theorem c8_cancellation_exclusion (df : List Txn) (r : Txn)
    (hr : r ∈ cleanEnrich df) : r.invoice.data.contains 'C' = false := by
  unfold cleanEnrich at hr
  have h1 := (List.mem_filter.mp hr).1
  have h2 := (List.mem_filter.mp h1).2
  simpa using h2

theorem c8_cancellation_exclusion_witness :
    ((⟨"1", "s", some "d", 1, 0, 1, some 5, "others"⟩ : Txn) ∈ cleanEnrich [c8w]) ∧
    (⟨"1", "s", some "d", 1, 0, 1, some 5, "others"⟩ : Txn).invoice.data.contains 'C' = false :=
  ⟨by decide, c8_cancellation_exclusion [c8w] _ (by decide)⟩

set_option maxRecDepth 1000000 in
/-- C9 counterexample: on a column of 98 zeros and one value 1000 the
first capping pass lowers the outlier to 50; recomputing thresholds from
the capped data and capping again lowers it further to 5/2, so capping
with recomputed thresholds is not idempotent. -/
theorem c9_counterexample :
    replace_with_thresholds (replace_with_thresholds c9df Txn.price setPrice)
        Txn.price setPrice ≠ replace_with_thresholds c9df Txn.price setPrice ∧
    (replace_with_thresholds c9df Txn.price setPrice).map Txn.price =
      List.replicate 98 0 ++ [50] ∧
    (replace_with_thresholds (replace_with_thresholds c9df Txn.price setPrice)
        Txn.price setPrice).map Txn.price = List.replicate 98 0 ++ [5/2] := by
  refine ⟨by decide, by decide, by decide⟩

/-- C9 amended: capping is a no-op on a column whose values already lie
inside the thresholds computed from it, and on such a column a second
application changes nothing; with thresholds recomputed from once-capped
data a second application can change values further. -/
theorem c9_amended (df : List Txn) (col : Txn → ℚ) (upd : Txn → ℚ → Txn)
    (h : ∀ r ∈ df, ¬ (col r < (outlier_thresholds df col).1) ∧
      ¬ ((outlier_thresholds df col).2 < col r)) :
    replace_with_thresholds df col upd = df ∧
    replace_with_thresholds (replace_with_thresholds df col upd) col upd =
      replace_with_thresholds df col upd := by
  have h1 := replace_noop df col upd h
  refine ⟨h1, ?_⟩
  rw [h1]
  exact h1

theorem c9_amended_witness :
    (∀ r ∈ [c9r0], ¬ (Txn.price r < (outlier_thresholds [c9r0] Txn.price).1) ∧
      ¬ ((outlier_thresholds [c9r0] Txn.price).2 < Txn.price r)) ∧
    (replace_with_thresholds [c9r0] Txn.price setPrice = [c9r0] ∧
      replace_with_thresholds (replace_with_thresholds [c9r0] Txn.price setPrice)
          Txn.price setPrice = replace_with_thresholds [c9r0] Txn.price setPrice) :=
  ⟨by decide, c9_amended [c9r0] Txn.price setPrice (by decide)⟩

/-- C10: no stage filters on the sign of quantity: a valid input whose two
rows have quantity -1, positive price, non-cancellation invoices and no
missing fields survives cleaning with its negative quantities intact, the
negative line totals enter the monetary sum, and the output row has
monetary -200 and cltv -200, both negative. -/
theorem c10_negative_quantity :
    (cleanEnrich [c10a, c10b]).map Txn.quantity = [-1, -1] ∧
    pipeline [c10a, c10b] 1209600 = [c10row] ∧
    c10row.monetary < 0 ∧ c10row.cltv < 0 := by decide
